import Mathlib

/-!
Verification of the ClawRouter core against its specification.

The development shallowly embeds the TypeScript sources:

* `src/clawcredit.ts` (claw.credit payment backend): `headersToObject`,
  `microsToUsd`, and the response handling of `createClawCreditFetch`;
* `src/cli.ts`: the construction of the claw.credit configuration from
  environment variables;
* `src/local-backend.ts`: `getLocalBackend`;

and models, from the specification, the parts of the router pipeline whose
source is not part of the reviewed tree (model-id normalization, candidate
chain construction, the dispatcher's response classification, the fallback
loop, and the session pin store).

JavaScript strings are embedded as `String` (lists of `Char`), JavaScript
numbers used for USD amounts as `ℚ`, and the results of `JSON.parse` as an
explicit `Json` inductive; a failed parse is `Option.none`.
-/

namespace ClawRouter

/-! ### JavaScript string primitives -/

/-- Whitespace as removed by JavaScript `String.prototype.trim`
(space, tab, newline, carriage return, vertical tab, form feed). -/
def isJsWs (c : Char) : Bool :=
  c.toNat = 32 || c.toNat = 9 || c.toNat = 10 || c.toNat = 13 || c.toNat = 11 || c.toNat = 12

/-- `trim` on the character list: drop whitespace from both ends. -/
def trimChars (l : List Char) : List Char :=
  ((l.dropWhile isJsWs).reverse.dropWhile isJsWs).reverse

/-- JavaScript `String.prototype.trim`. -/
def jsTrim (s : String) : String :=
  ⟨trimChars s.data⟩

/-- JavaScript `String.prototype.toLowerCase` (ASCII letters). -/
def jsToLower (s : String) : String :=
  ⟨s.data.map Char.toLower⟩

/-- JavaScript `String.prototype.toUpperCase` (ASCII letters). -/
def jsToUpper (s : String) : String :=
  ⟨s.data.map Char.toUpper⟩

/-- Lowercase every character before the first `/` and keep the rest:
the character-level core of explicit-model-id normalization. -/
def lowerPrefixAux : List Char → List Char
  | [] => []
  | c :: cs => if c = '/' then c :: cs else Char.toLower c :: lowerPrefixAux cs

/-- Modelled from the spec: explicit-model normalization (§4.3) — trim
surrounding whitespace, lowercase the vendor segment before the first `/`,
preserve the rest of the id unchanged. The routing source that implements
it is not part of the reviewed tree. -/
def normalizeModelId (s : String) : String :=
  ⟨lowerPrefixAux (trimChars s.data)⟩

/-- Does `pat` occur as a contiguous run inside `hay`?  This embeds the
JavaScript `String.prototype.includes` used to scan response bodies. -/
def containsSeq : List Char → List Char → Bool
  | [], pat => pat.isEmpty
  | c :: t, pat => pat.isPrefixOf (c :: t) || containsSeq t pat

/-- `includes` on strings. -/
def strContains (s pat : String) : Bool :=
  containsSeq s.data pat.data

/-! ### JSON values

Results of `JSON.parse`; a parse failure is represented by `Option.none`
at use sites. -/

inductive Json where
  | null
  | bool (b : Bool)
  | num (q : ℚ)
  | str (s : String)
  | arr (elems : List Json)
  | obj (fields : List (String × Json))

/-- Look a key up in a parsed JSON object (`key in parsed` / `parsed[key]`). -/
def lookupField : List (String × Json) → String → Option Json
  | [], _ => none
  | f :: rest, key => if f.1 = key then some f.2 else lookupField rest key

/-! ### claw.credit payment backend (`src/clawcredit.ts`) -/

structure ClawCreditConfig where
  baseUrl : Option String
  apiToken : String
  chain : String
  asset : String

/-- `headersToObject`: iterate the incoming headers (the `Headers` wrapper
lowercases every name), skipping `host`, `content-length` and `connection`. -/
def headersToObject (hs : List (String × String)) : List (String × String) :=
  (hs.map (fun kv => (jsToLower kv.1, kv.2))).filter
    (fun kv => !(kv.1 == ("host") || kv.1 == ("content-length") || kv.1 == ("connection")))

/-- `Number(x).toFixed(6)` re-read as a number: round to 6 decimal places,
half away from zero (all inputs reaching it are positive). -/
def round6 (q : ℚ) : ℚ :=
  (Int.floor (q * 1000000 + 1 / 2) : ℚ) / 1000000

/-- `microsToUsd`: parse the estimated amount (in micro-USD) and convert to
USD.  `none` stands for an absent or unparseable (`NaN` / infinite) input;
`Number("")` is `0` and takes the non-positive branch. -/
def microsToUsd (micros : Option ℚ) : ℚ :=
  match micros with
  | none => 1 / 100
  | some m => if m ≤ 0 then 1 / 100 else round6 (m / 1000000)

/-- The `Authorization` header attached to the `/v1/transaction/pay` call:
`createClawCreditFetch` trims the configured token and prefixes `Bearer `. -/
def clawCreditAuthHeader (config : ClawCreditConfig) : String :=
  ("Bearer ") ++ jsTrim config.apiToken

/-- The `transaction.chain` field of the pay envelope:
`config.chain.toUpperCase()`. -/
def clawCreditTxChain (config : ClawCreditConfig) : String :=
  jsToUpper config.chain

/-- The body shapes a `Response` can carry back to the dispatcher: the raw
text of the pay reply, or re-serialized JSON. -/
inductive PayBody where
  | raw (text : String)
  | json (j : Json)

/-- `parsed && typeof parsed === "object" && "merchant_response" in parsed
? parsed.merchant_response : parsed`. -/
def extractMerchant (parsed : Json) : Json :=
  match parsed with
  | Json.obj fields =>
    match lookupField fields ("merchant_response") with
    | some v => v
    | none => Json.obj fields
  | other => other

/-- `merchantResponse ?? {}` — a `null` merchant payload becomes `{}`. -/
def nullishCoalesceEmpty (m : Json) : Json :=
  match m with
  | Json.null => Json.obj []
  | v => v

/-- Response handling of `createClawCreditFetch` after the
`/v1/transaction/pay` call: `payStatus` and `text` are the reply's status
and body text, `parsed` the result of `JSON.parse text` (`none` on a parse
error, in which case the code substitutes `{ raw: text }`).  A non-2xx is
propagated with its status and body; a 2xx yields a 200 carrying the
extracted merchant payload. -/
def clawCreditPayResponse (payStatus : Nat) (text : String) (parsed : Option Json) :
    Nat × PayBody :=
  if 200 ≤ payStatus ∧ payStatus < 300 then
    let p := parsed.getD (Json.obj [(("raw"), Json.str text)])
    (200, PayBody.json (nullishCoalesceEmpty (extractMerchant p)))
  else
    (payStatus, PayBody.raw text)

/-! ### CLI configuration (`src/cli.ts`) -/

/-- JavaScript `env.X || default` on strings: the empty string is falsy. -/
def envOrDefault (v : Option String) (d : String) : String :=
  match v with
  | some s => if s = ("") then d else s
  | none => d

/-- The claw.credit configuration the CLI builds from the environment
(`BLOCKRUN_PAYMENT_MODE=clawcredit` branch of `main`). -/
def cliClawCreditConfig (tokenEnv chainEnv assetEnv baseEnv : Option String) :
    ClawCreditConfig where
  baseUrl := some (jsTrim (envOrDefault baseEnv ("https://api.claw.credit")))
  apiToken := jsTrim (envOrDefault tokenEnv (""))
  chain := jsToUpper (jsTrim (envOrDefault chainEnv ("BASE")))
  asset := jsTrim (envOrDefault assetEnv ("0x833589fCD6eDb6E08f4c7C32D4f71b54bdA02913"))

/-! ### Local backend (`src/local-backend.ts`) -/

structure LocalBackendConfig where
  enabled : Bool
  command : String
  args : Option (List String)

structure LocalBackendsConfig where
  claude : Option LocalBackendConfig

/-- The Anthropic-model test inside `getLocalBackend`. -/
def isAnthropicModel (modelId : String) : Bool :=
  ("anthropic/").data.isPrefixOf modelId.data ||
    modelId == ("claude") || modelId == ("sonnet") ||
    modelId == ("opus") || modelId == ("haiku")

/-- `getLocalBackend`: return the Claude backend config exactly when it is
enabled and the model is an Anthropic model. -/
def getLocalBackend (modelId : String) (config : Option LocalBackendsConfig) :
    Option LocalBackendConfig :=
  match config with
  | none => none
  | some cfg =>
    match cfg.claude with
    | none => none
    | some claude =>
      if claude.enabled && isAnthropicModel modelId then some claude else none

/-! ### Router: candidate chains (modelled from the spec) -/

/-- The designated emergency free model that terminates every chain. -/
def emergencyFreeModel : String := "nvidia/gpt-oss-120b"

/-- Order-preserving de-duplication, keeping first occurrences;
`seen` accumulates the ids already emitted. -/
def dedupKeepFirst (seen : List String) : List String → List String
  | [] => []
  | x :: xs => if x ∈ seen then dedupKeepFirst seen xs else x :: dedupKeepFirst (x :: seen) xs

/-- Modelled from the spec: candidate-chain construction (§4.3 steps 3–4),
whose routing source is not part of the reviewed tree.  `candidates` is the
primary model followed by the same-tier alternatives (steps 1–2); the
emergency free model is appended as the guaranteed final step of every
chain (§8 invariant), the order-preserving de-duplication removing any
earlier occurrence of it. -/
def resolveChain (candidates : List String) : List String :=
  dedupKeepFirst [] (candidates.filter (fun m => !(m == emergencyFreeModel))) ++
    [emergencyFreeModel]

/-- Modelled from the spec: the chain for an explicit (non-alias) model —
the normalized id, then the emergency free model (§4.3; fallback tests 5–7). -/
def explicitChain (modelId : String) : List String :=
  resolveChain [normalizeModelId modelId]

/-! ### Upstream dispatcher (modelled from the spec) -/

/-- The literal marker of a wrapped x402 payment failure. -/
def x402Marker : String := "x402_payment_failed"

inductive ResultKind where
  | success
  | paymentFailed
  | providerError
  | clientError
deriving DecidableEq

/-- Modelled from the spec: response classification of the upstream
dispatcher (§4.7 and the wrapped-failure design note, whose source is not
part of the reviewed tree).  The body is scanned for the
`x402_payment_failed` token before any status check; then 2xx is success,
402 a payment failure, billing/provider text a provider error, any other
4xx a fatal client error, and a residual 5xx a recoverable provider
error. -/
def classifyResponse (status : Nat) (body : String) : ResultKind :=
  if strContains body x402Marker then ResultKind.paymentFailed
  else if 200 ≤ status ∧ status < 300 then ResultKind.success
  else if status = 402 then ResultKind.paymentFailed
  else if strContains body ("provider_error") || strContains body ("billing") then
    ResultKind.providerError
  else if 400 ≤ status ∧ status < 500 then ResultKind.clientError
  else ResultKind.providerError

/-- Which result kinds let the fallback executor proceed to the next
candidate (§7: everything except success and a fatal client error). -/
def recoverable : ResultKind → Bool
  | ResultKind.paymentFailed => true
  | ResultKind.providerError => true
  | _ => false

/-- Modelled from the spec: the fallback executor's walk over the candidate
chain (§4.8, source not part of the reviewed tree), recorded as the
sequence of model ids sent upstream.  `upstream` maps the model id placed
in the forwarded body to the status and body of the reply; the loop stops
at the first success or fatal error and otherwise moves on. -/
def attemptsRun (upstream : String → Nat × String) : List String → List String
  | [] => []
  | m :: rest =>
    if recoverable (classifyResponse (upstream m).1 (upstream m).2) then
      m :: attemptsRun upstream rest
    else [m]

/-- The wrapped x402 payment failure body served by the mock upstream of
the premium-compatibility test (a 400 whose JSON wraps a merchant 402). -/
def wrappedX402Body : String :=
  "\x7b\"error\":\"Payment required: \x7b\\\"error\\\":\\\"x402_payment_failed\\\",\\\"merchant_status\\\":402\x7d\"\x7d"

/-- A plain successful completion body (no payment marker). -/
def plainOkBody : String :=
  "\x7b\"id\":\"chatcmpl-test\",\"object\":\"chat.completion\"\x7d"

/-- The premium-compatibility mock upstream: the explicit grok model
answers 400 with the wrapped x402 body, everything else succeeds. -/
def wrappedMockUpstream (m : String) : Nat × String :=
  if m = ("xai/grok-code-fast-1") then (400, wrappedX402Body) else (200, plainOkBody)

/-- The same mock with a direct 402 instead of the wrapped failure. -/
def direct402MockUpstream (m : String) : Nat × String :=
  if m = ("xai/grok-code-fast-1") then (402, ("Payment Required")) else (200, plainOkBody)

/-! ### Session pin store (modelled from the spec) -/

/-- Modelled from the spec: the session pin store (§4.4, source not part of
the reviewed tree) — a map from `(session_id, tier_profile)` to the pinned
model and its expiry instant. -/
structure SessionPinStore where
  entries : List ((String × String) × (String × Nat))

/-- First-match lookup by exact `(session_id, tier_profile)` key. -/
def pinLookup : List ((String × String) × (String × Nat)) → String × String →
    Option (String × Nat)
  | [], _ => none
  | e :: rest, key => if e.1 = key then some e.2 else pinLookup rest key

/-- `get`: return the pinned model unless the entry is absent or expired. -/
def pinGet (store : SessionPinStore) (sessionId tierProfile : String) (now : Nat) :
    Option String :=
  match pinLookup store.entries (sessionId, tierProfile) with
  | some (m, expiresAt) => if now < expiresAt then some m else none
  | none => none

/-- `set`: record the model under `(session_id, tier_profile)` with a fresh
expiry, replacing any previous entry for the same key. -/
def pinSet (store : SessionPinStore) (sessionId tierProfile modelId : String)
    (now ttl : Nat) : SessionPinStore :=
  ⟨((sessionId, tierProfile), (modelId, now + ttl)) ::
    store.entries.filter (fun e => !(decide (e.1 = (sessionId, tierProfile))))⟩

/-! ### Helper lemmas: characters and trimming -/

theorem char_toNat_ofNat {n : Nat} (h : n.isValidChar) : (Char.ofNat n).toNat = n := by
  simp [Char.ofNat, dif_pos h, Char.ofNatAux, Char.toNat, UInt32.toNat, BitVec.toNat_ofNatLt]

theorem toLower_idem (c : Char) : (Char.toLower c).toLower = Char.toLower c := by
  unfold Char.toLower
  by_cases h : c.toNat ≥ 65 ∧ c.toNat ≤ 90
  · rw [if_pos h]
    have hv : (c.toNat + 32).isValidChar := Or.inl (by omega)
    rw [char_toNat_ofNat hv, if_neg (by omega)]
  · rw [if_neg h, if_neg h]

theorem toUpper_idem (c : Char) : (Char.toUpper c).toUpper = Char.toUpper c := by
  unfold Char.toUpper
  by_cases h : c.toNat ≥ 97 ∧ c.toNat ≤ 122
  · rw [if_pos h]
    have hv : (c.toNat - 32).isValidChar := Or.inl (by omega)
    rw [char_toNat_ofNat hv, if_neg (by omega)]
  · rw [if_neg h, if_neg h]

theorem isJsWs_toLower (c : Char) : isJsWs (Char.toLower c) = isJsWs c := by
  unfold Char.toLower
  by_cases h : c.toNat ≥ 65 ∧ c.toNat ≤ 90
  · rw [if_pos h]
    have hv : (c.toNat + 32).isValidChar := Or.inl (by omega)
    have h1 : isJsWs c = false := by simp [isJsWs]; omega
    have h2 : isJsWs (Char.ofNat (c.toNat + 32)) = false := by
      simp [isJsWs, char_toNat_ofNat hv]; omega
    rw [h1, h2]
  · rw [if_neg h]

theorem toLower_ne_slash {c : Char} (h : ¬ c = '/') : ¬ Char.toLower c = '/' := by
  unfold Char.toLower
  by_cases hc : c.toNat ≥ 65 ∧ c.toNat ≤ 90
  · rw [if_pos hc]
    intro he
    have hv : (c.toNat + 32).isValidChar := Or.inl (by omega)
    have hn : (Char.ofNat (c.toNat + 32)).toNat = c.toNat + 32 := char_toNat_ofNat hv
    rw [he] at hn
    have hs : ('/').toNat = 47 := by decide
    omega
  · rw [if_neg hc]; exact h

theorem dropWhile_self (p : Char → Bool) (l : List Char) :
    (l.dropWhile p).dropWhile p = l.dropWhile p := by
  induction l with
  | nil => rfl
  | cons a t ih =>
    by_cases h : p a
    · simp [List.dropWhile_cons, h, ih]
    · simp [List.dropWhile_cons, h]

theorem head?_dropWhile (p : Char → Bool) (l : List Char) :
    ∀ c, (l.dropWhile p).head? = some c → p c = false := by
  induction l with
  | nil => simp
  | cons a t ih =>
    by_cases h : p a
    · simpa [List.dropWhile_cons, h] using ih
    · intro c hc
      simp [List.dropWhile_cons, h] at hc
      subst hc
      simpa using h

theorem dropWhile_eq_self_of_head? (p : Char → Bool) (l : List Char)
    (h : ∀ c, l.head? = some c → p c = false) : l.dropWhile p = l := by
  cases l with
  | nil => rfl
  | cons a t => simp [List.dropWhile_cons, h a rfl]

/-- Both ends of the list are free of JavaScript whitespace. -/
def NoWsEnds (l : List Char) : Prop :=
  (∀ c, l.head? = some c → isJsWs c = false) ∧
  (∀ c, l.getLast? = some c → isJsWs c = false)

theorem trimChars_eq_self (l : List Char) (h : NoWsEnds l) : trimChars l = l := by
  unfold trimChars
  rw [dropWhile_eq_self_of_head? _ _ h.1]
  rw [dropWhile_eq_self_of_head? _ _ (fun c hc => h.2 c (by rwa [List.head?_reverse] at hc))]
  exact List.reverse_reverse l

theorem noWsEnds_trimChars (l : List Char) : NoWsEnds (trimChars l) := by
  constructor
  · intro c hc
    have hpre : trimChars l <+: l.dropWhile isJsWs := by
      have hs : ((l.dropWhile isJsWs).reverse.dropWhile isJsWs) <:+ (l.dropWhile isJsWs).reverse :=
        List.dropWhile_suffix isJsWs
      have hp := List.reverse_prefix.mpr hs
      simpa [trimChars] using hp
    obtain ⟨r, hr⟩ := hpre
    have hhead : (l.dropWhile isJsWs).head? = some c := by
      cases htl : trimChars l with
      | nil => rw [htl] at hc; simp at hc
      | cons a t =>
        rw [htl] at hc
        simp at hc
        rw [← hr, htl]
        simp [hc]
    exact head?_dropWhile isJsWs l c hhead
  · intro c hc
    rw [← List.head?_reverse] at hc
    unfold trimChars at hc
    rw [List.reverse_reverse] at hc
    exact head?_dropWhile isJsWs (l.dropWhile isJsWs).reverse c hc

theorem trimChars_idem (l : List Char) : trimChars (trimChars l) = trimChars l :=
  trimChars_eq_self _ (noWsEnds_trimChars l)

theorem jsTrim_idem (s : String) : jsTrim (jsTrim s) = jsTrim s := by
  cases s with
  | mk d => exact congrArg String.mk (trimChars_idem d)

theorem map_toUpper_idem (l : List Char) :
    (l.map Char.toUpper).map Char.toUpper = l.map Char.toUpper := by
  induction l with
  | nil => rfl
  | cons a t ih => simp [toUpper_idem a, ih]

theorem jsToUpper_idem (s : String) : jsToUpper (jsToUpper s) = jsToUpper s := by
  cases s with
  | mk d => exact congrArg String.mk (map_toUpper_idem d)

/-! ### Helper lemmas: normalization -/

theorem lowerPrefixAux_idem (l : List Char) :
    lowerPrefixAux (lowerPrefixAux l) = lowerPrefixAux l := by
  induction l with
  | nil => rfl
  | cons a t ih =>
    by_cases h : a = '/'
    · simp [lowerPrefixAux, h]
    · simp [lowerPrefixAux, h, if_neg (toLower_ne_slash h), toLower_idem, ih]

theorem lowerPrefixAux_head?_map (l : List Char) :
    (lowerPrefixAux l).head?.map isJsWs = l.head?.map isJsWs := by
  cases l with
  | nil => rfl
  | cons a t => by_cases ha : a = '/' <;> simp [lowerPrefixAux, ha, isJsWs_toLower]

theorem lowerPrefixAux_getLast?_map (l : List Char) :
    (lowerPrefixAux l).getLast?.map isJsWs = l.getLast?.map isJsWs := by
  induction l with
  | nil => rfl
  | cons a t ih =>
    by_cases ha : a = '/'
    · simp [lowerPrefixAux, ha]
    · cases t with
      | nil => simp [lowerPrefixAux, ha, isJsWs_toLower]
      | cons b s =>
        have hne : lowerPrefixAux (b :: s) ≠ [] := by
          by_cases hb : b = '/' <;> simp [lowerPrefixAux, hb]
        obtain ⟨x, xs, hx⟩ := List.exists_cons_of_ne_nil hne
        calc (lowerPrefixAux (a :: b :: s)).getLast?.map isJsWs
            = (Char.toLower a :: lowerPrefixAux (b :: s)).getLast?.map isJsWs := by
              simp [lowerPrefixAux, ha]
          _ = (lowerPrefixAux (b :: s)).getLast?.map isJsWs := by
              rw [hx, List.getLast?_cons_cons]
          _ = ((b :: s).getLast?).map isJsWs := ih
          _ = ((a :: b :: s).getLast?).map isJsWs := by rw [List.getLast?_cons_cons]

theorem noWsEnds_of_maps {l m : List Char}
    (hh : m.head?.map isJsWs = l.head?.map isJsWs)
    (hg : m.getLast?.map isJsWs = l.getLast?.map isJsWs)
    (h : NoWsEnds l) : NoWsEnds m := by
  constructor
  · intro c hc
    rw [hc] at hh
    cases hl : l.head? with
    | none => rw [hl] at hh; simp at hh
    | some c0 => rw [hl] at hh; simp at hh; rw [hh]; exact h.1 c0 hl
  · intro c hc
    rw [hc] at hg
    cases hl : l.getLast? with
    | none => rw [hl] at hg; simp at hg
    | some c0 => rw [hl] at hg; simp at hg; rw [hg]; exact h.2 c0 hl

/-! ### Helper lemmas: chains, pins -/

theorem dedupKeepFirst_not_mem_seen {x : String} :
    ∀ (seen l : List String), x ∈ dedupKeepFirst seen l → x ∉ seen := by
  intro seen l
  induction l generalizing seen with
  | nil => simp [dedupKeepFirst]
  | cons a t ih =>
    intro hx
    by_cases h : a ∈ seen
    · rw [dedupKeepFirst, if_pos h] at hx
      exact ih seen hx
    · rw [dedupKeepFirst, if_neg h] at hx
      rcases List.mem_cons.mp hx with rfl | hx
      · exact h
      · intro hxs
        exact ih (a :: seen) hx (List.mem_cons_of_mem a hxs)

theorem dedupKeepFirst_nodup : ∀ (seen l : List String), (dedupKeepFirst seen l).Nodup := by
  intro seen l
  induction l generalizing seen with
  | nil => simp [dedupKeepFirst]
  | cons a t ih =>
    by_cases h : a ∈ seen
    · rw [dedupKeepFirst, if_pos h]
      exact ih seen
    · rw [dedupKeepFirst, if_neg h]
      refine List.nodup_cons.mpr ⟨?_, ih (a :: seen)⟩
      intro hmem
      exact dedupKeepFirst_not_mem_seen (a :: seen) t hmem (List.mem_cons_self a seen)

theorem dedupKeepFirst_subset {x : String} :
    ∀ (seen l : List String), x ∈ dedupKeepFirst seen l → x ∈ l := by
  intro seen l
  induction l generalizing seen with
  | nil => simp [dedupKeepFirst]
  | cons a t ih =>
    intro hx
    by_cases h : a ∈ seen
    · rw [dedupKeepFirst, if_pos h] at hx
      exact List.mem_cons_of_mem a (ih seen hx)
    · rw [dedupKeepFirst, if_neg h] at hx
      rcases List.mem_cons.mp hx with rfl | hx
      · exact List.mem_cons_self x t
      · exact List.mem_cons_of_mem a (ih (a :: seen) hx)

theorem resolveChain_getLast? (candidates : List String) :
    (resolveChain candidates).getLast? = some emergencyFreeModel :=
  List.getLast?_concat _

theorem resolveChain_nodup (candidates : List String) : (resolveChain candidates).Nodup := by
  unfold resolveChain
  rw [List.nodup_append]
  refine ⟨dedupKeepFirst_nodup _ _, List.nodup_singleton _, ?_⟩
  intro x hx hx'
  have hxf := dedupKeepFirst_subset _ _ hx
  have := List.mem_filter.mp hxf
  rcases List.mem_singleton.mp hx' with rfl
  simp at this

theorem attemptsRun_single (upstream : String → Nat × String) (m : String) :
    attemptsRun upstream [m] = [m] := by
  rw [attemptsRun]
  split <;> rfl

theorem pinLookup_filter_ne {entries : List ((String × String) × (String × Nat))}
    {k k' : String × String} (h : k ≠ k') :
    pinLookup (entries.filter (fun e => !(decide (e.1 = k')))) k = pinLookup entries k := by
  induction entries with
  | nil => rfl
  | cons e rest ih =>
    by_cases he : e.1 = k'
    · rw [List.filter_cons_of_neg (by simp [he])]
      rw [ih, pinLookup, if_neg (fun hek => h (hek.symm.trans he))]
    · rw [List.filter_cons_of_pos (by simp [he])]
      rw [pinLookup, pinLookup]
      by_cases hek : e.1 = k
      · rw [if_pos hek, if_pos hek]
      · rw [if_neg hek, if_neg hek, ih]

theorem nullishCoalesceEmpty_of_ne {v : Json} (h : v ≠ Json.null) :
    nullishCoalesceEmpty v = v := by
  cases v <;> first | rfl | exact absurd rfl h

/-! ### Claims -/

/-- C1: every upstream response whose body contains the `x402_payment_failed`
token is classified as a payment failure regardless of HTTP status; in the
premium-compatibility scenario (explicit `xai/grok-code-fast-1` whose first
attempt returns a 400 wrapping a 402) the models sent upstream are exactly
`["xai/grok-code-fast-1", "nvidia/gpt-oss-120b"]`, the same sequence as for
a direct 402. -/
theorem x402_marker_payment_failure_fallback :
    (∀ (status : Nat) (body : String), strContains body x402Marker = true →
      classifyResponse status body = ResultKind.paymentFailed) ∧
    attemptsRun wrappedMockUpstream (explicitChain ("xai/grok-code-fast-1")) =
      [("xai/grok-code-fast-1"), emergencyFreeModel] ∧
    attemptsRun wrappedMockUpstream (explicitChain ("xai/grok-code-fast-1")) =
      attemptsRun direct402MockUpstream (explicitChain ("xai/grok-code-fast-1")) := by
  refine ⟨?_, by decide, by decide⟩
  intro status body h
  rw [classifyResponse, if_pos h]

/-- C1 witness: the wrapped 400 body of the premium-compatibility test is
classified as a payment failure. -/
theorem x402_marker_payment_failure_fallback_witness :
    classifyResponse 400 wrappedX402Body = ResultKind.paymentFailed :=
  x402_marker_payment_failure_fallback.1 400 wrappedX402Body (by decide)

/-- C2: every candidate chain ends with the emergency free model and
contains no duplicate model id; an explicit model whose single attempt
fails recoverably is followed by exactly one more attempt, on
`nvidia/gpt-oss-120b`. -/
theorem chain_ends_with_emergency_free_model :
    (∀ candidates : List String,
      (resolveChain candidates).getLast? = some emergencyFreeModel ∧
      (resolveChain candidates).Nodup) ∧
    (∀ (modelId : String) (upstream : String → Nat × String),
      normalizeModelId modelId ≠ emergencyFreeModel →
      recoverable (classifyResponse (upstream (normalizeModelId modelId)).1
        (upstream (normalizeModelId modelId)).2) = true →
      attemptsRun upstream (explicitChain modelId) =
        [normalizeModelId modelId, emergencyFreeModel]) := by
  constructor
  · exact fun c => ⟨resolveChain_getLast? c, resolveChain_nodup c⟩
  · intro modelId upstream hne hrec
    have hchain : explicitChain modelId = [normalizeModelId modelId, emergencyFreeModel] := by
      simp [explicitChain, resolveChain, List.filter_cons, hne, dedupKeepFirst]
    rw [hchain, attemptsRun, if_pos hrec, attemptsRun_single]

/-- C2 witness: the explicit `openai/gpt-4o` chain of fallback test 5, with
the mock answering it a 400 billing error before the free model succeeds. -/
theorem chain_ends_with_emergency_free_model_witness :
    (resolveChain [("openai/gpt-4o")]).getLast? = some emergencyFreeModel ∧
    (resolveChain [("openai/gpt-4o")]).Nodup ∧
    attemptsRun
      (fun m => if m = ("openai/gpt-4o") then
        (400, ("\x7b\"error\":\x7b\"message\":\"billing error\",\"type\":\"provider_error\"\x7d\x7d"))
        else (200, plainOkBody))
      (explicitChain ("openai/gpt-4o")) =
      [normalizeModelId ("openai/gpt-4o"), emergencyFreeModel] :=
  ⟨(chain_ends_with_emergency_free_model.1 _).1,
   (chain_ends_with_emergency_free_model.1 _).2,
   chain_ends_with_emergency_free_model.2 ("openai/gpt-4o") _ (by decide) (by decide)⟩

/-- C3: a session pin written under one tier profile is invisible to a
lookup under any other tier profile; in particular pinning under `premium`
does not route a subsequent `eco` request to the pinned model. -/
theorem session_pin_profile_isolation :
    (∀ (store : SessionPinStore) (sessionId profileA profileB modelId : String)
      (now ttl t : Nat), profileA ≠ profileB →
      pinGet (pinSet store sessionId profileA modelId now ttl) sessionId profileB t =
        pinGet store sessionId profileB t) ∧
    pinGet (pinSet ⟨[]⟩ ("sess-1") ("premium") ("anthropic/claude-sonnet-4") 0 600)
      ("sess-1") ("eco") 1 = none := by
  refine ⟨?_, by decide⟩
  intro store sid pA pB m now ttl t hne
  have hkey : ((sid, pA) : String × String) ≠ (sid, pB) := by
    simp [Prod.ext_iff, hne]
  unfold pinGet pinSet
  rw [pinLookup, if_neg (fun hk => hkey hk)]
  rw [pinLookup_filter_ne (fun hk => hkey hk.symm)]

/-- C3 witness: pinning `m1` under `premium` leaves the `eco` lookup
exactly as on the untouched store. -/
theorem session_pin_profile_isolation_witness :
    pinGet (pinSet ⟨[]⟩ ("s") ("premium") ("m1") 0 600) ("s") ("eco") 0 =
      pinGet (⟨[]⟩ : SessionPinStore) ("s") ("eco") 0 :=
  session_pin_profile_isolation.1 ⟨[]⟩ ("s") ("premium") ("eco") ("m1") 0 600 0 (by decide)

/-- C4 counterexample: at an estimated amount of `0.4` micro-USD the code
emits `0` USD — strictly below the claimed `0.01` floor (which would give
`0.01`) and not strictly positive. -/
theorem micros_to_usd_floor_counterexample :
    microsToUsd (some (2 / 5)) = 0 ∧
    microsToUsd (some (2 / 5)) < 1 / 100 ∧
    max (1 / 100) (round6 (2 / 5 / 1000000)) = 1 / 100 := by
  have h0 : round6 ((2 : ℚ) / 5 / 1000000) = 0 := by
    rw [round6]
    rw [show ((2 : ℚ) / 5 / 1000000 * 1000000 + 1 / 2) = 9 / 10 by norm_num]
    rw [show (Int.floor ((9 : ℚ) / 10)) = 0 by rw [Int.floor_eq_iff]; norm_num]
    norm_num
  have hv : microsToUsd (some ((2 : ℚ) / 5)) = 0 := by
    rw [microsToUsd, if_neg (by norm_num), h0]
  exact ⟨hv, by rw [hv]; norm_num, by rw [h0]; norm_num⟩

/-- C4 (amended): the emitted USD amount is `round6(micros / 1e6)` whenever
the input parses to a finite positive number, and the `0.01` fallback only
when the input is absent, unparseable, or non-positive; the amount is
non-negative but can fall below `0.01` (and reach `0`). -/
theorem micros_to_usd_conversion :
    microsToUsd none = 1 / 100 ∧
    (∀ m : ℚ, m ≤ 0 → microsToUsd (some m) = 1 / 100) ∧
    (∀ m : ℚ, 0 < m → microsToUsd (some m) = round6 (m / 1000000)) ∧
    (∀ m : ℚ, 0 ≤ microsToUsd (some m)) := by
  refine ⟨rfl, ?_, ?_, ?_⟩
  · intro m hm
    rw [microsToUsd, if_pos hm]
  · intro m hm
    rw [microsToUsd, if_neg (not_le.mpr hm)]
  · intro m
    by_cases hm : m ≤ 0
    · rw [microsToUsd, if_pos hm]; norm_num
    · rw [microsToUsd, if_neg hm, round6]
      have hmpos : 0 < m := not_le.mp hm
      have harg : (0 : ℚ) ≤ m / 1000000 * 1000000 + 1 / 2 := by
        rw [div_mul_cancel₀ m (by norm_num : (1000000 : ℚ) ≠ 0)]
        linarith
      have hfl : (0 : ℤ) ≤ Int.floor (m / 1000000 * 1000000 + 1 / 2) :=
        Int.floor_nonneg.mpr harg
      have : (0 : ℚ) ≤ (Int.floor (m / 1000000 * 1000000 + 1 / 2) : ℚ) := by
        exact_mod_cast hfl
      exact div_nonneg this (by norm_num)

/-- C4 witness: a valid positive input (`50000` micro-USD) takes the
rounded-division branch. -/
theorem micros_to_usd_conversion_witness :
    microsToUsd (some 50000) = round6 ((50000 : ℚ) / 1000000) :=
  micros_to_usd_conversion.2.2.1 50000 (by norm_num)

/-- C5: a non-2xx reply from `/v1/transaction/pay` is propagated with its
status and body; a 2xx wrapper carrying a non-null `merchant_response`
yields a 200 response whose body is exactly that merchant payload. -/
theorem clawcredit_pay_response_propagation :
    (∀ (status : Nat) (text : String) (parsed : Option Json),
      ¬(200 ≤ status ∧ status < 300) →
      clawCreditPayResponse status text parsed = (status, PayBody.raw text)) ∧
    (∀ (status : Nat) (text : String) (fields : List (String × Json)) (v : Json),
      200 ≤ status → status < 300 →
      lookupField fields ("merchant_response") = some v → v ≠ Json.null →
      clawCreditPayResponse status text (some (Json.obj fields)) = (200, PayBody.json v)) := by
  constructor
  · intro status text parsed h
    rw [clawCreditPayResponse, if_neg h]
  · intro status text fields v h1 h2 hk hv
    rw [clawCreditPayResponse, if_pos ⟨h1, h2⟩]
    have hm : extractMerchant (Json.obj fields) = v := by
      rw [extractMerchant, hk]
    simp only [Option.getD_some, hm, nullishCoalesceEmpty_of_ne hv]

/-- C5 witness: a 201 wrapper with a string merchant payload comes back as
a 200 carrying the payload; evaluated at concrete inputs through the
theorem. -/
theorem clawcredit_pay_response_propagation_witness :
    clawCreditPayResponse 503 ("upstream down") none = (503, PayBody.raw ("upstream down")) ∧
    clawCreditPayResponse 201 ("t")
      (some (Json.obj [(("merchant_response"), Json.str ("ok"))])) =
      (200, PayBody.json (Json.str ("ok"))) :=
  ⟨clawcredit_pay_response_propagation.1 503 ("upstream down") none (by omega),
   clawcredit_pay_response_propagation.2 201 ("t") _ _ (by omega) (by omega) rfl
     (fun h => Json.noConfusion h)⟩

/-- C6: the pay call's Authorization header is `Bearer` + the configured
token (exactly, for every configuration the CLI builds); the embedded
headers exclude `host`, `content-length`, `connection` and keep every other
incoming header; the envelope's `transaction.chain` is always upper-case. -/
theorem clawcredit_envelope_auth_headers_chain :
    (∀ config : ClawCreditConfig,
      clawCreditAuthHeader config = ("Bearer ") ++ jsTrim config.apiToken) ∧
    (∀ tokenEnv chainEnv assetEnv baseEnv : Option String,
      clawCreditAuthHeader (cliClawCreditConfig tokenEnv chainEnv assetEnv baseEnv) =
        ("Bearer ") ++ (cliClawCreditConfig tokenEnv chainEnv assetEnv baseEnv).apiToken) ∧
    (∀ (hs : List (String × String)) (kv : String × String), kv ∈ headersToObject hs →
      kv.1 ≠ ("host") ∧ kv.1 ≠ ("content-length") ∧ kv.1 ≠ ("connection")) ∧
    (∀ (hs : List (String × String)) (k v : String),
      jsToLower k ≠ ("host") → jsToLower k ≠ ("content-length") →
      jsToLower k ≠ ("connection") →
      (k, v) ∈ hs → (jsToLower k, v) ∈ headersToObject hs) ∧
    (∀ config : ClawCreditConfig,
      jsToUpper (clawCreditTxChain config) = clawCreditTxChain config) := by
  refine ⟨fun c => rfl, ?_, ?_, ?_, fun c => jsToUpper_idem c.chain⟩
  · intro tokenEnv chainEnv assetEnv baseEnv
    show ("Bearer ") ++ jsTrim (jsTrim (envOrDefault tokenEnv (""))) = _
    rw [jsTrim_idem]
    rfl
  · intro hs kv hmem
    have hf := (List.mem_filter.mp hmem).2
    simp only [Bool.not_eq_eq_eq_not, Bool.not_true, Bool.or_eq_false_iff,
      beq_eq_false_iff_ne] at hf
    exact ⟨hf.1.1, hf.1.2, hf.2⟩
  · intro hs k v h1 h2 h3 hmem
    refine List.mem_filter.mpr ⟨List.mem_map.mpr ⟨(k, v), hmem, rfl⟩, ?_⟩
    simp [h1, h2, h3]

/-- C6 witness: concrete instances of every conjunct — a CLI-built config
with an untrimmed env token, a header list carrying `host`,
`content-length`, `connection` and an ordinary header, and a lower-case
chain. -/
theorem clawcredit_envelope_auth_headers_chain_witness :
    clawCreditAuthHeader (cliClawCreditConfig (some (" tok ")) none none none) =
      ("Bearer ") ++ (cliClawCreditConfig (some (" tok ")) none none none).apiToken ∧
    ((("content-type"), ("application/json")) ∈
      headersToObject [(("Host"), ("x")), (("Content-Length"), ("42")),
        (("Connection"), ("close")), (("Content-Type"), ("application/json"))]) ∧
    jsToUpper (clawCreditTxChain ⟨none, ("t"), ("base"), ("a")⟩) =
      clawCreditTxChain ⟨none, ("t"), ("base"), ("a")⟩ :=
  ⟨clawcredit_envelope_auth_headers_chain.2.1 (some (" tok ")) none none none,
   clawcredit_envelope_auth_headers_chain.2.2.2.1 _ ("Content-Type") ("application/json")
     (by decide) (by decide) (by decide) (by decide),
   clawcredit_envelope_auth_headers_chain.2.2.2.2 ⟨none, ("t"), ("base"), ("a")⟩⟩

/-- C7: explicit-model normalization trims the id and lowercases only the
vendor prefix (`"  DEEPSEEK/deepseek-chat  "` becomes exactly
`deepseek/deepseek-chat`), and a successful first attempt means exactly one
upstream call, carrying the normalized id. -/
theorem explicit_model_normalization_forwarding :
    normalizeModelId ("  DEEPSEEK/deepseek-chat  ") = ("deepseek/deepseek-chat") ∧
    (∀ upstream : String → Nat × String,
      classifyResponse (upstream ("deepseek/deepseek-chat")).1
        (upstream ("deepseek/deepseek-chat")).2 = ResultKind.success →
      attemptsRun upstream (explicitChain ("  DEEPSEEK/deepseek-chat  ")) =
        [("deepseek/deepseek-chat")]) := by
  refine ⟨by decide, ?_⟩
  intro upstream h
  have hchain : explicitChain ("  DEEPSEEK/deepseek-chat  ") =
      [("deepseek/deepseek-chat"), emergencyFreeModel] := by decide
  rw [hchain, attemptsRun, h]
  simp [recoverable]

/-- C7 witness: with an upstream that always answers 200, the normalized
deepseek request makes exactly one call. -/
theorem explicit_model_normalization_forwarding_witness :
    attemptsRun (fun _ => (200, plainOkBody))
      (explicitChain ("  DEEPSEEK/deepseek-chat  ")) = [("deepseek/deepseek-chat")] :=
  explicit_model_normalization_forwarding.2 (fun _ => (200, plainOkBody)) (by decide)

/-- C8: model-id normalization is idempotent. -/
theorem normalize_model_id_idempotent (s : String) :
    normalizeModelId (normalizeModelId s) = normalizeModelId s := by
  cases s with
  | mk d =>
    show String.mk (lowerPrefixAux (trimChars (lowerPrefixAux (trimChars d)))) = _
    rw [trimChars_eq_self _ (noWsEnds_of_maps (lowerPrefixAux_head?_map _)
      (lowerPrefixAux_getLast?_map _) (noWsEnds_trimChars d))]
    rw [lowerPrefixAux_idem]
    rfl

/-- C9: degenerate 2xx replies from `/v1/transaction/pay` still yield a 200
JSON response — an unparseable body is forwarded as `{"raw": <text>}`, a
wrapper without `merchant_response` is forwarded whole, and a null
`merchant_response` becomes `{}`. -/
theorem clawcredit_pay_degenerate_2xx :
    (∀ (status : Nat) (text : String), 200 ≤ status → status < 300 →
      clawCreditPayResponse status text none =
        (200, PayBody.json (Json.obj [(("raw"), Json.str text)]))) ∧
    (∀ (status : Nat) (text : String) (fields : List (String × Json)),
      200 ≤ status → status < 300 →
      lookupField fields ("merchant_response") = none →
      clawCreditPayResponse status text (some (Json.obj fields)) =
        (200, PayBody.json (Json.obj fields))) ∧
    (∀ (status : Nat) (text : String) (fields : List (String × Json)),
      200 ≤ status → status < 300 →
      lookupField fields ("merchant_response") = some Json.null →
      clawCreditPayResponse status text (some (Json.obj fields)) =
        (200, PayBody.json (Json.obj []))) := by
  refine ⟨?_, ?_, ?_⟩
  · intro status text h1 h2
    rw [clawCreditPayResponse, if_pos ⟨h1, h2⟩]
    have hm : extractMerchant (Json.obj [(("raw"), Json.str text)]) =
        Json.obj [(("raw"), Json.str text)] := by
      simp [extractMerchant, lookupField]
    simp only [Option.getD_none, hm, nullishCoalesceEmpty]
  · intro status text fields h1 h2 hk
    rw [clawCreditPayResponse, if_pos ⟨h1, h2⟩]
    have hm : extractMerchant (Json.obj fields) = Json.obj fields := by
      rw [extractMerchant, hk]
    simp only [Option.getD_some, hm, nullishCoalesceEmpty]
  · intro status text fields h1 h2 hk
    rw [clawCreditPayResponse, if_pos ⟨h1, h2⟩]
    have hm : extractMerchant (Json.obj fields) = Json.null := by
      rw [extractMerchant, hk]
    simp only [Option.getD_some, hm, nullishCoalesceEmpty]

/-- C9 witness: the three degenerate cases at concrete inputs (status 200,
an unparseable body, a wrapper without the key, and a null payload). -/
theorem clawcredit_pay_degenerate_2xx_witness :
    clawCreditPayResponse 200 ("<html>") none =
      (200, PayBody.json (Json.obj [(("raw"), Json.str ("<html>"))])) ∧
    clawCreditPayResponse 200 ("t") (some (Json.obj [(("status"), Json.str ("ok"))])) =
      (200, PayBody.json (Json.obj [(("status"), Json.str ("ok"))])) ∧
    clawCreditPayResponse 200 ("t") (some (Json.obj [(("merchant_response"), Json.null)])) =
      (200, PayBody.json (Json.obj [])) :=
  ⟨clawcredit_pay_degenerate_2xx.1 200 ("<html>") (by omega) (by omega),
   clawcredit_pay_degenerate_2xx.2.1 200 ("t") _ (by omega) (by omega)
     (by rw [lookupField, if_neg (by decide), lookupField]),
   clawcredit_pay_degenerate_2xx.2.2 200 ("t") _ (by omega) (by omega)
     (by rw [lookupField, if_pos rfl])⟩

/-- C10: `getLocalBackend` returns the configured Claude backend exactly
when that backend is enabled and the model id starts with `anthropic/` or
is one of the literals `claude`, `sonnet`, `opus`, `haiku`; in every other
case (including a disabled backend or an absent config) it returns
nothing. -/
theorem get_local_backend_characterization :
    (∀ modelId : String, getLocalBackend modelId none = none) ∧
    (∀ (modelId : String) (b : LocalBackendConfig),
      getLocalBackend modelId (some ⟨some b⟩) =
        if b.enabled && isAnthropicModel modelId then some b else none) ∧
    (∀ (modelId : String) (config : Option LocalBackendsConfig) (b : LocalBackendConfig),
      getLocalBackend modelId config = some b ↔
        ∃ c : LocalBackendsConfig, config = some c ∧ c.claude = some b ∧
          b.enabled = true ∧ isAnthropicModel modelId = true) := by
  refine ⟨fun _ => rfl, fun _ _ => rfl, ?_⟩
  intro m config b
  constructor
  · intro h
    cases config with
    | none => exact Option.noConfusion h
    | some c =>
      cases hc : c.claude with
      | none =>
        simp only [getLocalBackend, hc] at h
        exact Option.noConfusion h
      | some claude =>
        simp only [getLocalBackend, hc] at h
        by_cases hcond : claude.enabled && isAnthropicModel m
        · rw [if_pos hcond] at h
          have hb : claude = b := Option.some.inj h
          subst hb
          rcases Bool.and_eq_true_iff.mp hcond with ⟨he, ha⟩
          exact ⟨c, rfl, hc, he, ha⟩
        · rw [if_neg hcond] at h
          exact Option.noConfusion h
  · rintro ⟨c, rfl, hc, he, ha⟩
    simp only [getLocalBackend, hc]
    rw [if_pos (by rw [he, ha]; rfl)]

end ClawRouter
